import Mathlib

/-!
Verification development for the per-channel number-guessing game bot
(`src/main.py`).  The Python source is shallowly embedded: every stateful
method becomes a pure function from the old `GameState` (plus the external
inputs it reads: current time, random draw, message author/content) to the
new `GameState`; the observable side effects that the claims mention
(channel announcements, reward-delivery attempts, the improvement log line,
persistence writes) are returned as an explicit list of `Output` events in
source order.  Machine integers are modelled as `Int` (Python integers are
unbounded, so no wrap-around is needed); timestamps are abstract `Int`
instants with `datetime.now()` passed in as a parameter; `random.randint`
draws are passed in as a parameter constrained to the inclusive range.
-/

set_option linter.unusedVariables false

namespace Giveaway

/-- One reward entry, mirroring the Python dict `{"game_name": ..., "key": ...}`
appended by `game_addkey` / `game_addkeymulti`. -/
structure KeyEntry where
  game_name : String
  key : String
deriving DecidableEq

/-- Mirror of the Python class `GameState` (src/main.py, `GameState.__init__`).
`Option` encodes Python `None`; rounds and bounds are `Int` because Python
integers are signed and unbounded. -/
structure GameState where
  channel_id : Int
  active : Bool
  paused : Bool
  number : Int
  min_number : Int
  max_number : Int
  timeout_minutes : Int
  end_time : Option Int
  closest_offset : Option Int
  winning_user_id : Option Int
  keys : List KeyEntry
  current_round : Int
  total_rounds : Int
deriving DecidableEq

/-- `GameState.__init__(channel_id)`: the defaults set in the constructor. -/
def GameState.new (cid : Int) : GameState :=
  { channel_id := cid
    active := false
    paused := false
    number := 0
    min_number := 0
    max_number := 500
    timeout_minutes := 10
    end_time := none
    closest_offset := none
    winning_user_id := none
    keys := []
    current_round := 0
    total_rounds := 0 }

/-- In-channel announcements sent by the bot (the payloads the claims care
about).  `nextRound` carries the key entry looked up for the round banner
(`none` when the source would print "Unknown" or the guarded lookup misses). -/
inductive ChannelMsg where
  | winner (uid : Int) (number : Int) (closest : Option Int) (round total : Int)
  | noWinner (round total : Int)
  | nextRound (round total : Int) (keyInfo : Option KeyEntry)
  | gameOver
deriving DecidableEq

/-- Observable side effects of one operation, in source order.
`rewardAttempt` marks entry into the guarded reward-delivery block of
`finalize_round` (the DM attempt; its success or failure, and the in-channel
failure notices, happen strictly inside that block in the source, so the
block is skipped iff no `rewardAttempt` event is emitted).
`logImprove old new author` is the `logger.info` call on the improvement
path of `process_message`; `saveState` is a `self.save_state()` call. -/
inductive Output where
  | channelMsg (m : ChannelMsg)
  | rewardAttempt (uid : Int) (keyInfo : Option KeyEntry)
  | logImprove (old : Option Int) (new : Int) (author : Int)
  | saveState
deriving DecidableEq

/-- Python list indexing `l[i]`: non-negative indices are direct, negative
indices wrap once from the end, anything else is an `IndexError` (`none`). -/
def pyGet {α : Type} (l : List α) (i : Int) : Option α :=
  if 0 ≤ i then l.get? i.toNat
  else if 0 ≤ i + (l.length : Int) then l.get? (i + (l.length : Int)).toNat
  else none

/-- Python truthiness of `game.winning_user_id` (`None` and `0` are falsy):
returns the id when the source's `if game.winning_user_id:` succeeds. -/
def truthyUser : Option Int → Option Int
  | some u => if u = 0 then none else some u
  | none => none

/-- The source's timeout test `game.end_time and datetime.now() >= game.end_time`
(a set `end_time` is always truthy). -/
def expired (now : Int) (g : GameState) : Bool :=
  match g.end_time with
  | some t => t ≤ now
  | none => false

/-- Base-10 value of a digit string, the semantics of Python `int(s)` on a
non-empty all-digit string. -/
def digitsVal (l : List Char) : Nat :=
  l.foldl (fun acc c => acc * 10 + (c.toNat - 48)) 0

/-- `process_message` guess extraction (src/main.py lines 152-161):
`''.join(c for c in message.content if c.isdigit())`, then `int(...)`
when non-empty.  Digit characters are modelled as ASCII digits. -/
def guessOf (content : String) : Option Int :=
  let ds := content.data.filter Char.isDigit
  if ds = [] then none else some ((digitsVal ds : Nat) : Int)

/-- The improvement test `game.closest_offset is None or offset < game.closest_offset`. -/
def improves (off : Int) : Option Int → Bool
  | none => true
  | some c => off < c

/-- `NumberGuessBot.start_round` (src/main.py lines 241-252): increments the
round counter, draws a fresh number (`rand`), clears the best guess, arms the
deadline and activates the round. -/
def start_round (rand now : Int) (g : GameState) : GameState :=
  { g with
    current_round := g.current_round + 1
    number := rand
    closest_offset := none
    winning_user_id := none
    end_time := some (now + g.timeout_minutes)
    active := true
    paused := false }

/-- First half of `NumberGuessBot.finalize_round` (src/main.py lines 181-214),
up to the first suspension point (`await channel.send`): deactivates the game
synchronously, then emits the winner / no-winner announcement and, when
`current_round <= len(keys)`, the reward-delivery attempt for
`keys[current_round - 1]`. -/
def finalize_begin (g : GameState) : GameState × List Output :=
  let g1 := { g with active := false }
  match truthyUser g1.winning_user_id with
  | some uid =>
      let outs := [Output.channelMsg
        (ChannelMsg.winner uid g1.number g1.closest_offset g1.current_round g1.total_rounds)]
      if g1.current_round ≤ (g1.keys.length : Int) then
        (g1, outs ++ [Output.rewardAttempt uid (pyGet g1.keys (g1.current_round - 1))])
      else (g1, outs)
  | none =>
      (g1, [Output.channelMsg (ChannelMsg.noWinner g1.current_round g1.total_rounds)])

/-- Second half of `NumberGuessBot.finalize_round` (src/main.py lines 216-239):
either auto-start the next round (with `start_round`, whose internal
`save_state` is the first `saveState` event) and announce it, or announce
overall completion and reset `paused`, the round counters and the key pool;
both branches end with the trailing `save_state` of `finalize_round`. -/
def finalize_end (rand now : Int) (g : GameState) : GameState × List Output :=
  if g.current_round < g.total_rounds then
    let g2 := start_round rand now g
    (g2, [Output.saveState,
          Output.channelMsg (ChannelMsg.nextRound g2.current_round g2.total_rounds
            (if g2.current_round ≤ (g2.keys.length : Int) then
               pyGet g2.keys (g2.current_round - 1) else none)),
          Output.saveState])
  else
    ({ g with paused := false, current_round := 0, total_rounds := 0, keys := [] },
     [Output.channelMsg ChannelMsg.gameOver, Output.saveState])

/-- `NumberGuessBot.finalize_round` (src/main.py lines 181-239), the
composition of its two halves. -/
def finalize_round (rand now : Int) (g : GameState) : GameState × List Output :=
  let b := finalize_begin g
  let e := finalize_end rand now b.1
  (e.1, b.2 ++ e.2)

/-- `NumberGuessBot.process_message` (src/main.py lines 133-179) for a message
in this game's channel: bot authors and inactive/paused games are ignored; an
elapsed deadline finalizes instead of evaluating; otherwise the digits are
extracted, range-checked, and an improving guess is recorded (log + state +
save), finalizing immediately on an exact match. -/
def process_message (now rand authorId : Int) (isBot : Bool) (content : String)
    (g : GameState) : GameState × List Output :=
  if isBot then (g, [])
  else if !g.active || g.paused then (g, [])
  else if expired now g then finalize_round rand now g
  else
    match guessOf content with
    | none => (g, [])
    | some n =>
        if n < g.min_number || g.max_number < n then (g, [])
        else
          let off := |g.number - n|
          if improves off g.closest_offset then
            let outs := [Output.logImprove g.closest_offset off authorId, Output.saveState]
            let g' := { g with closest_offset := some off, winning_user_id := some authorId }
            if off = 0 then
              let r := finalize_round rand now g'
              (r.1, outs ++ r.2)
            else (g', outs)
          else (g, [])

/-- One `check_timeouts` scan for this game (src/main.py lines 286-297):
`if game.active and not game.paused and game.end_time:` then finalize when
the deadline has passed. -/
def tick_op (now rand : Int) (g : GameState) : GameState :=
  if g.active && !g.paused && g.end_time.isSome then
    if expired now g then (finalize_round rand now g).1 else g
  else g

/-- `game_init` (src/main.py lines 300-344): validates the range and timeout,
rejects while active, otherwise overwrites the settings; note that it sets
`closest_offset = 0` (not `None`) while clearing `winning_user_id`. -/
def init_op (mn mx tm : Int) (g : GameState) : GameState :=
  if mn < 0 || mx < mn then g
  else if tm < 1 || 60 < tm then g
  else if g.active then g
  else
    { g with
      min_number := mn
      max_number := mx
      timeout_minutes := tm
      active := false
      paused := false
      winning_user_id := none
      closest_offset := some 0
      current_round := 0
      total_rounds := 0 }

/-- `game_addkey` (src/main.py lines 393-416): bumps `total_rounds` when a
game is active and appends the entry. -/
def addkey_op (name key : String) (g : GameState) : GameState :=
  let g1 := if g.active then { g with total_rounds := g.total_rounds + 1 } else g
  { g1 with keys := g1.keys ++ [⟨name, key⟩] }

/-- Python `str.strip()` on a character list. -/
def trimChars (l : List Char) : List Char :=
  ((l.dropWhile Char.isWhitespace).reverse.dropWhile Char.isWhitespace).reverse

/-- Python `str.strip()`. -/
def pyStrip (s : String) : String := String.mk (trimChars s.data)

/-- One loop iteration of `game_addkeymulti` (src/main.py lines 364-374):
strip the line, skip it when empty or when it contains no space character,
otherwise `rsplit(' ', 1)` (split on the last space) and strip both halves. -/
def parse_line (line : String) : Option KeyEntry :=
  let l := trimChars line.data
  if l = [] then none
  else if ' ' ∈ l then
    let r := l.reverse
    let keyPart := (r.takeWhile (fun c => c ≠ ' ')).reverse
    let namePart := ((r.dropWhile (fun c => c ≠ ' ')).drop 1).reverse
    some ⟨pyStrip (String.mk namePart), pyStrip (String.mk keyPart)⟩
  else none

/-- The body of the `game_addkeymulti` line loop acting on the accumulated
`(game.keys, added_count)` pair. -/
def addKeysStep (p : List KeyEntry × Int) (line : String) : List KeyEntry × Int :=
  match parse_line line with
  | some e => (p.1 ++ [e], p.2 + 1)
  | none => p

/-- `game_addkeymulti` (src/main.py lines 346-391): the line loop appending
parsed entries and counting them, then `total_rounds += added_count` when the
game is active. -/
def addkeymulti_op (lines : List String) (g : GameState) : GameState :=
  let p := lines.foldl addKeysStep (g.keys, 0)
  let g1 := { g with keys := p.1 }
  if g1.active then { g1 with total_rounds := g1.total_rounds + p.2 } else g1

/-- `game_clearkeys` (src/main.py lines 438-454): rejected while active,
otherwise clears the pool and the round counters. -/
def clearkeys_op (g : GameState) : GameState :=
  if g.active then g
  else { g with keys := [], current_round := 0, total_rounds := 0 }

/-- `game_start` (src/main.py lines 457-513): rejected with no keys; resumes a
paused game without incrementing the round; rejected when already active;
otherwise fixes `total_rounds = len(keys)` and starts round 1. -/
def start_op (rand now : Int) (g : GameState) : GameState :=
  if g.keys = [] then g
  else if g.paused then
    { g with
      number := rand
      closest_offset := none
      winning_user_id := none
      end_time := some (now + g.timeout_minutes)
      active := true
      paused := false }
  else if g.active then g
  else
    start_round rand now
      { g with total_rounds := (g.keys.length : Int), current_round := 0 }

/-- `game_pause` (src/main.py lines 516-539): rejected when idle or already
paused, otherwise deactivates and marks paused (leaving `end_time` set). -/
def pause_op (g : GameState) : GameState :=
  if !g.active && !g.paused then g
  else if g.paused then g
  else { g with active := false, paused := true }

/-- `game_stop` (src/main.py lines 542-558): rejected when idle, otherwise
clears the flags and round counters (keeping the key pool and `end_time`). -/
def stop_op (g : GameState) : GameState :=
  if !g.active && !g.paused then g
  else { g with active := false, paused := false, current_round := 0, total_rounds := 0 }

/-! ## Reachability through the public operations

One labelled step of the system for a single channel's state.  External
inputs (timestamps, message author and content, random draws) are universally
quantified on the step; a `random.randint(min, max)` draw is constrained to
its inclusive range, exactly the contract of the Python call. -/

inductive Step : GameState → GameState → Prop where
  | init (g : GameState) (mn mx tm : Int) : Step g (init_op mn mx tm g)
  | addkey (g : GameState) (name key : String) : Step g (addkey_op name key g)
  | addkeymulti (g : GameState) (lines : List String) : Step g (addkeymulti_op lines g)
  | clearkeys (g : GameState) : Step g (clearkeys_op g)
  | start (g : GameState) (rand now : Int)
      (hlo : g.min_number ≤ rand) (hhi : rand ≤ g.max_number) :
      Step g (start_op rand now g)
  | pause (g : GameState) : Step g (pause_op g)
  | stop (g : GameState) : Step g (stop_op g)
  | message (g : GameState) (now rand authorId : Int) (isBot : Bool) (content : String)
      (hlo : g.min_number ≤ rand) (hhi : rand ≤ g.max_number) :
      Step g (process_message now rand authorId isBot content g).1
  | tick (g : GameState) (now rand : Int)
      (hlo : g.min_number ≤ rand) (hhi : rand ≤ g.max_number) :
      Step g (tick_op now rand g)

/-- States reachable from a freshly created channel entry through the public
operations. -/
inductive Reachable : GameState → Prop where
  | base (cid : Int) : Reachable (GameState.new cid)
  | step {g g' : GameState} : Reachable g → Step g g' → Reachable g'

/-- `closest_offset` and `winning_user_id` are both present or both absent. -/
def pairOK (g : GameState) : Prop :=
  g.closest_offset.isSome = g.winning_user_id.isSome

/-- The inductive invariant of the transition system: round counters are
ordered, the best-guess pair is consistent except for the idle mismatch that
`game_init` creates, active rounds have an armed deadline, a strictly
positive (or absent) best offset, an in-range hidden number, a non-empty key
pool, and are not paused. -/
def Inv (g : GameState) : Prop :=
  0 ≤ g.current_round ∧
  g.current_round ≤ g.total_rounds ∧
  (pairOK g ∨ (g.active = false ∧ g.paused = false ∧
      g.closest_offset = some 0 ∧ g.winning_user_id = none)) ∧
  (g.active = true → g.end_time.isSome = true) ∧
  (g.active = true → g.closest_offset ≠ some 0) ∧
  (∀ c, g.closest_offset = some c → 0 ≤ c) ∧
  (g.active = true → g.min_number ≤ g.number ∧ g.number ≤ g.max_number) ∧
  (g.active = true → g.keys ≠ []) ∧
  (g.active = true → g.paused = false)

theorem inv_new (cid : Int) : Inv (GameState.new cid) := by
  refine ⟨le_refl 0, le_refl 0, Or.inl rfl, ?_, ?_, ?_, ?_, ?_, ?_⟩ <;>
    simp [GameState.new, pairOK]

theorem inv_init (mn mx tm : Int) {g : GameState} (h : Inv g) :
    Inv (init_op mn mx tm g) := by
  obtain ⟨h1, h2, h3, h4, h5, h6, h7, h8, h9⟩ := h
  unfold init_op
  split
  · exact ⟨h1, h2, h3, h4, h5, h6, h7, h8, h9⟩
  split
  · exact ⟨h1, h2, h3, h4, h5, h6, h7, h8, h9⟩
  split
  · exact ⟨h1, h2, h3, h4, h5, h6, h7, h8, h9⟩
  · refine ⟨le_refl 0, le_refl 0, Or.inr ⟨rfl, rfl, rfl, rfl⟩, ?_, ?_, ?_, ?_, ?_, ?_⟩ <;> simp

theorem inv_addkey (name key : String) {g : GameState} (h : Inv g) :
    Inv (addkey_op name key g) := by
  obtain ⟨h1, h2, h3, h4, h5, h6, h7, h8, h9⟩ := h
  unfold addkey_op
  split
  · exact ⟨h1, by simpa using le_trans h2 (by omega), h3, h4, h5, h6, h7,
      by simp, h9⟩
  · exact ⟨h1, h2, h3, h4, h5, h6, h7, by simp, h9⟩

/-- The `game_addkeymulti` loop appends exactly the parseable lines, in line
order, and counts them. -/
theorem addKeys_fold_spec (lines : List String) (ks : List KeyEntry) (n : Int) :
    lines.foldl addKeysStep (ks, n) =
      (ks ++ lines.filterMap parse_line,
       n + ((lines.filterMap parse_line).length : Int)) := by
  induction lines generalizing ks n with
  | nil => simp
  | cons a l ih =>
      simp only [List.foldl_cons, List.filterMap_cons]
      cases hp : parse_line a with
      | none => simpa [addKeysStep, hp] using ih ks n
      | some e =>
          rw [show addKeysStep (ks, n) a = (ks ++ [e], n + 1) by
            simp [addKeysStep, hp]]
          rw [ih]
          simp only [List.length_cons, List.append_assoc, List.singleton_append,
            Prod.mk.injEq, true_and]
          push_cast
          ring

theorem inv_addkeymulti (lines : List String) {g : GameState} (h : Inv g) :
    Inv (addkeymulti_op lines g) := by
  obtain ⟨h1, h2, h3, h4, h5, h6, h7, h8, h9⟩ := h
  unfold addkeymulti_op
  rw [addKeys_fold_spec]
  have hlen : (0 : Int) ≤ ((lines.filterMap parse_line).length : Int) := by positivity
  dsimp only
  split
  · refine ⟨h1, by dsimp only; omega, h3, h4, h5, h6, h7, ?_, h9⟩
    intro ha
    dsimp only at ha ⊢
    intro hk
    exact h8 ha (List.append_eq_nil.mp hk).1
  · refine ⟨h1, h2, h3, h4, h5, h6, h7, ?_, h9⟩
    intro ha
    dsimp only at ha ⊢
    intro hk
    exact h8 ha (List.append_eq_nil.mp hk).1

theorem inv_clearkeys {g : GameState} (h : Inv g) : Inv (clearkeys_op g) := by
  obtain ⟨h1, h2, h3, h4, h5, h6, h7, h8, h9⟩ := h
  unfold clearkeys_op
  split
  · exact ⟨h1, h2, h3, h4, h5, h6, h7, h8, h9⟩
  · rename_i hna
    have ha : g.active = false := by
      cases hact : g.active
      · rfl
      · exact absurd hact hna
    refine ⟨le_refl 0, le_refl 0, ?_, ?_, ?_, ?_, ?_, ?_, ?_⟩
    · rcases h3 with h3 | ⟨_, hp, hc, hw⟩
      · exact Or.inl h3
      · exact Or.inr ⟨ha, hp, hc, hw⟩
    all_goals simp [ha]
    exact h6

/-- Every state `finalize_begin` produces is the input with `active` cleared. -/
theorem finalize_begin_fst (g : GameState) :
    (finalize_begin g).1 = { g with active := false } := by
  unfold finalize_begin
  dsimp only
  split
  · split <;> rfl
  · rfl

theorem inv_finalize (rand now : Int) {g : GameState}
    (h1 : 0 ≤ g.current_round) (h2 : g.current_round ≤ g.total_rounds)
    (h3 : pairOK g)
    (h6 : ∀ c, g.closest_offset = some c → 0 ≤ c)
    (hlo : g.min_number ≤ rand) (hhi : rand ≤ g.max_number)
    (h8 : g.keys ≠ []) :
    Inv (finalize_round rand now g).1 := by
  unfold finalize_round
  dsimp only
  rw [finalize_begin_fst]
  unfold finalize_end
  dsimp only
  split
  · rename_i hlt
    unfold start_round
    refine ⟨?_, ?_, Or.inl ?_, ?_, ?_, ?_, ?_, ?_, ?_⟩ <;>
      simp_all [pairOK] <;> omega
  · refine ⟨le_refl 0, le_refl 0, Or.inl ?_, ?_, ?_, ?_, ?_, ?_, ?_⟩
    · simpa [pairOK] using h3
    all_goals simp
    exact h6

theorem inv_start (rand now : Int) {g : GameState} (h : Inv g)
    (hlo : g.min_number ≤ rand) (hhi : rand ≤ g.max_number) :
    Inv (start_op rand now g) := by
  obtain ⟨h1, h2, h3, h4, h5, h6, h7, h8, h9⟩ := h
  unfold start_op
  split
  · exact ⟨h1, h2, h3, h4, h5, h6, h7, h8, h9⟩
  rename_i hk
  split
  · exact ⟨h1, h2, Or.inl (by simp [pairOK]), by simp, by simp, by simp,
      fun _ => ⟨hlo, hhi⟩, fun _ => hk, fun _ => rfl⟩
  split
  · exact ⟨h1, h2, h3, h4, h5, h6, h7, h8, h9⟩
  · unfold start_round
    refine ⟨by simp, ?_, Or.inl (by simp [pairOK]), by simp, by simp, by simp,
      fun _ => ⟨hlo, hhi⟩, fun _ => hk, fun _ => rfl⟩
    dsimp only
    have : g.keys ≠ [] := hk
    have hpos : 0 < g.keys.length := List.length_pos.mpr this
    omega

theorem inv_pause {g : GameState} (h : Inv g) : Inv (pause_op g) := by
  obtain ⟨h1, h2, h3, h4, h5, h6, h7, h8, h9⟩ := h
  unfold pause_op
  split
  · exact ⟨h1, h2, h3, h4, h5, h6, h7, h8, h9⟩
  rename_i hg
  split
  · exact ⟨h1, h2, h3, h4, h5, h6, h7, h8, h9⟩
  · rename_i hnp
    have hp : g.paused = false := by
      cases hp : g.paused
      · rfl
      · exact absurd hp hnp
    have ha : g.active = true := by
      cases hact : g.active
      · exact absurd (by simp [hact, hp]) hg
      · rfl
    have hpair : pairOK g := by
      rcases h3 with h3 | ⟨hfa, _, _, _⟩
      · exact h3
      · rw [ha] at hfa; exact absurd hfa (by simp)
    refine ⟨h1, h2, Or.inl (by simpa [pairOK] using hpair), ?_, ?_, ?_, ?_, ?_, ?_⟩ <;>
      simp
    exact h6

theorem inv_stop {g : GameState} (h : Inv g) : Inv (stop_op g) := by
  obtain ⟨h1, h2, h3, h4, h5, h6, h7, h8, h9⟩ := h
  unfold stop_op
  split
  · exact ⟨h1, h2, h3, h4, h5, h6, h7, h8, h9⟩
  · refine ⟨le_refl 0, le_refl 0, ?_, ?_, ?_, ?_, ?_, ?_, ?_⟩
    · rcases h3 with h3 | ⟨_, _, hc, hw⟩
      · exact Or.inl (by simpa [pairOK] using h3)
      · exact Or.inr ⟨rfl, rfl, hc, hw⟩
    all_goals simp
    exact h6

/-- The guard structure of `process_message`: once the author is not a bot and
the game is active, unpaused, and unexpired, invariance reduces to the guess
branches. -/
theorem inv_message (now rand authorId : Int) (isBot : Bool) (content : String)
    {g : GameState} (h : Inv g)
    (hlo : g.min_number ≤ rand) (hhi : rand ≤ g.max_number) :
    Inv (process_message now rand authorId isBot content g).1 := by
  obtain ⟨h1, h2, h3, h4, h5, h6, h7, h8, h9⟩ := h
  unfold process_message
  split
  · exact ⟨h1, h2, h3, h4, h5, h6, h7, h8, h9⟩
  split
  · exact ⟨h1, h2, h3, h4, h5, h6, h7, h8, h9⟩
  rename_i hguard
  have hact : g.active = true := by
    cases hact : g.active
    · exact absurd (by simp [hact]) hguard
    · rfl
  have hpair : pairOK g := by
    rcases h3 with h3 | ⟨hfa, _, _, _⟩
    · exact h3
    · rw [hact] at hfa; exact absurd hfa (by simp)
  split
  · exact inv_finalize rand now h1 h2 hpair h6 hlo hhi (h8 hact)
  split
  · exact ⟨h1, h2, h3, h4, h5, h6, h7, h8, h9⟩
  rename_i n hn
  split
  · exact ⟨h1, h2, h3, h4, h5, h6, h7, h8, h9⟩
  dsimp only
  split
  · split
    · rename_i hoff
      dsimp only
      refine inv_finalize rand now h1 h2 ?_ ?_ hlo hhi (h8 hact)
      · simp [pairOK]
      · intro c hc
        simp only [Option.some.injEq] at hc
        subst hc
        positivity
    · refine ⟨h1, h2, Or.inl (by simp [pairOK]), fun _ => h4 hact, ?_, ?_,
        fun _ => h7 hact, fun _ => h8 hact, fun _ => h9 hact⟩
      · rename_i _ hoff
        intro _
        simp only [ne_eq, Option.some.injEq]
        exact hoff
      · intro c hc
        simp only [Option.some.injEq] at hc
        subst hc
        positivity
  · exact ⟨h1, h2, h3, h4, h5, h6, h7, h8, h9⟩

theorem inv_tick (now rand : Int) {g : GameState} (h : Inv g)
    (hlo : g.min_number ≤ rand) (hhi : rand ≤ g.max_number) :
    Inv (tick_op now rand g) := by
  obtain ⟨h1, h2, h3, h4, h5, h6, h7, h8, h9⟩ := h
  unfold tick_op
  split
  · rename_i hguard
    have hact : g.active = true := by
      cases hact : g.active
      · simp [hact] at hguard
      · rfl
    have hpair : pairOK g := by
      rcases h3 with h3 | ⟨hfa, _, _, _⟩
      · exact h3
      · rw [hact] at hfa; exact absurd hfa (by simp)
    split
    · exact inv_finalize rand now h1 h2 hpair h6 hlo hhi (h8 hact)
    · exact ⟨h1, h2, h3, h4, h5, h6, h7, h8, h9⟩
  · exact ⟨h1, h2, h3, h4, h5, h6, h7, h8, h9⟩

/-- Every state reachable through the public operations satisfies the
inductive invariant. -/
theorem reachable_inv {g : GameState} (h : Reachable g) : Inv g := by
  induction h with
  | base cid => exact inv_new cid
  | step _ hs ih =>
      cases hs with
      | init mn mx tm => exact inv_init mn mx tm ih
      | addkey name key => exact inv_addkey name key ih
      | addkeymulti lines => exact inv_addkeymulti lines ih
      | clearkeys => exact inv_clearkeys ih
      | start rand now hlo hhi => exact inv_start rand now ih hlo hhi
      | pause => exact inv_pause ih
      | stop => exact inv_stop ih
      | message now rand authorId isBot content hlo hhi =>
          exact inv_message now rand authorId isBot content ih hlo hhi
      | tick now rand hlo hhi => exact inv_tick now rand ih hlo hhi

/-! ## Claim-side definitions and concrete reachable states -/

/-- The source's improvement test, as the spec phrases it. -/
theorem improves_iff (off : Int) (co : Option Int) :
    improves off co = true ↔ (co = none ∨ ∃ c, co = some c ∧ off < c) := by
  cases co <;> simp [improves]

/-- One step of the spec's reading of digit extraction: scan the text once,
keeping a running base-10 value over exactly the digit characters. -/
def digitsConcatStep (acc : Option Nat) (c : Char) : Option Nat :=
  if c.isDigit then some ((acc.getD 0) * 10 + (c.toNat - 48)) else acc

/-- The spec's reading of extraction: the base-10 integer obtained by
concatenating, in order of appearance, every digit character of the text,
`none` when the text has no digit character. -/
def digitsConcatVal (content : String) : Option Int :=
  (content.data.foldl digitsConcatStep none).map (fun n => (n : Int))

theorem foldl_digitsConcatStep_some (l : List Char) (a : Nat) :
    l.foldl digitsConcatStep (some a) =
      some ((l.filter Char.isDigit).foldl (fun acc c => acc * 10 + (c.toNat - 48)) a) := by
  induction l generalizing a with
  | nil => simp
  | cons c t ih =>
      by_cases hc : c.isDigit <;>
        simp [digitsConcatStep, List.filter_cons, hc, ih]

/-- The two readings of digit extraction agree on every text. -/
theorem guessOf_eq_digitsConcatVal (content : String) :
    guessOf content = digitsConcatVal content := by
  unfold guessOf digitsConcatVal
  generalize content.data = l
  induction l with
  | nil => simp
  | cons c t ih =>
      by_cases hc : c.isDigit
      · simp [List.filter_cons, hc, digitsConcatStep, foldl_digitsConcatStep_some, digitsVal]
      · simpa [List.filter_cons, hc, digitsConcatStep] using ih

/-- Fresh state of channel 1 (`get_or_create_game` on first reference). -/
def s0 : GameState := GameState.new 1

/-- Channel 1 after `/game addkey Alpha K1`. -/
def s1 : GameState := addkey_op "Alpha" "K1" s0

/-- Channel 1 after `/game start` with draw 5 at time 0: an active round 1/1,
hidden number 5, deadline 10. -/
def s2 : GameState := start_op 5 0 s1

/-- Channel 1 after the guess "7" at time 3 in `s2`: an active round with a
recorded best guess (offset 2, author 42). -/
def s3 : GameState := (process_message 3 9 42 false "7" s2).1

theorem reachable_s1 : Reachable s1 :=
  Reachable.step (Reachable.base 1) (Step.addkey s0 "Alpha" "K1")

theorem reachable_s2 : Reachable s2 :=
  Reachable.step reachable_s1 (Step.start s1 5 0 (by decide) (by decide))

theorem reachable_s3 : Reachable s3 :=
  Reachable.step reachable_s2 (Step.message s2 3 9 42 false "7" (by decide) (by decide))

/-- A Python list index computed from a position inside the list is valid. -/
theorem pyGet_isSome {α : Type} (l : List α) (i : Int)
    (hlo : -(l.length : Int) ≤ i) (hhi : i < (l.length : Int)) :
    (pyGet l i).isSome = true := by
  unfold pyGet
  split
  · rename_i h
    have hn : i.toNat < l.length := by omega
    rw [List.get?_eq_getElem?, List.getElem?_eq_getElem hn]
    rfl
  · rename_i h
    rw [if_pos (by omega)]
    have hn : (i + (l.length : Int)).toNat < l.length := by omega
    rw [List.get?_eq_getElem?, List.getElem?_eq_getElem hn]
    rfl

/-- `finalize_end` emits only announcements and persistence writes, never a
reward-delivery attempt. -/
theorem finalize_end_no_reward (rand now : Int) (g : GameState) :
    ∀ o ∈ (finalize_end rand now g).2, ∀ uid ki, o ≠ Output.rewardAttempt uid ki := by
  unfold finalize_end
  split
  · intro o ho uid ki
    simp only [List.mem_cons, List.not_mem_nil, or_false] at ho
    rcases ho with h | h | h <;> subst h <;> simp
  · intro o ho uid ki
    simp only [List.mem_cons, List.not_mem_nil, or_false] at ho
    rcases ho with h | h <;> subst h <;> simp

/-! ## Claims -/

/-- C1: for a message evaluated while the game is active, unpaused and before
its deadline, whose extracted digits parse to an in-range guess, the offset is
`|number - guess|`; the best-guess pair is rewritten to `(offset, author)` and
persisted exactly when `closest_offset` is absent or the new offset is
strictly smaller, and a tie or worse guess leaves the state unchanged with no
side effects. -/
theorem spec_c1_best_guess_update (g : GameState) (now rand authorId guess : Int)
    (content : String)
    (hact : g.active = true) (hp : g.paused = false)
    (hexp : expired now g = false)
    (hg : guessOf content = some guess)
    (hlo : g.min_number ≤ guess) (hhi : guess ≤ g.max_number) :
    ((g.closest_offset = none ∨ ∃ c, g.closest_offset = some c ∧ |g.number - guess| < c) →
        (|g.number - guess| ≠ 0 →
          process_message now rand authorId false content g =
            ({ g with closest_offset := some |g.number - guess|,
                      winning_user_id := some authorId },
             [Output.logImprove g.closest_offset |g.number - guess| authorId,
              Output.saveState])) ∧
        (|g.number - guess| = 0 →
          process_message now rand authorId false content g =
            ((finalize_round rand now
                { g with closest_offset := some |g.number - guess|,
                         winning_user_id := some authorId }).1,
             [Output.logImprove g.closest_offset |g.number - guess| authorId,
              Output.saveState] ++
               (finalize_round rand now
                 { g with closest_offset := some |g.number - guess|,
                          winning_user_id := some authorId }).2))) ∧
    (¬(g.closest_offset = none ∨ ∃ c, g.closest_offset = some c ∧ |g.number - guess| < c) →
        process_message now rand authorId false content g = (g, [])) := by
  constructor
  · intro hcond
    have himp : improves |g.number - guess| g.closest_offset = true :=
      (improves_iff _ _).mpr hcond
    constructor
    · intro hne
      unfold process_message
      simp [hact, hp, hexp, hg, not_lt.mpr hlo, not_lt.mpr hhi, himp, hne]
    · intro hz
      rw [hz] at himp
      unfold process_message
      simp [hact, hp, hexp, hg, not_lt.mpr hlo, not_lt.mpr hhi, himp, hz]
  · intro hcond
    have himp : improves |g.number - guess| g.closest_offset = false := by
      cases h : improves |g.number - guess| g.closest_offset
      · rfl
      · exact absurd ((improves_iff _ _).mp h) hcond
    unfold process_message
    simp [hact, hp, hexp, hg, not_lt.mpr hlo, not_lt.mpr hhi, himp]

theorem spec_c1_witness :
    process_message 3 9 42 false "7" s2 =
      ({ s2 with closest_offset := some 2, winning_user_id := some 42 },
       [Output.logImprove none 2 42, Output.saveState]) :=
  (((spec_c1_best_guess_update s2 3 9 42 7 "7" (by decide) (by decide) (by decide)
      (by decide) (by decide) (by decide)).1
    (Or.inl (by decide))).1 (by decide)).trans (by decide)

/-- C2: the guess the evaluator considers is the base-10 number formed by the
text's digit characters in order of appearance, all other characters
discarded; and, in an evaluating state (active, unpaused, unexpired), a
message with no digit character is ignored and leaves the state unchanged. -/
theorem spec_c2_digit_extraction (g : GameState) (now rand authorId : Int)
    (content : String)
    (hact : g.active = true) (hp : g.paused = false)
    (hexp : expired now g = false) :
    guessOf content = digitsConcatVal content ∧
    ((∀ c ∈ content.data, ¬ c.isDigit) →
      process_message now rand authorId false content g = (g, [])) := by
  refine ⟨guessOf_eq_digitsConcatVal content, ?_⟩
  intro hnd
  have hnone : guessOf content = none := by
    unfold guessOf
    rw [if_pos (List.filter_eq_nil_iff.mpr (fun c hc => by simpa using hnd c hc))]
  unfold process_message
  simp [hact, hp, hexp, hnone]

theorem spec_c2_witness :
    guessOf "hello" = digitsConcatVal "hello" ∧
    process_message 3 9 42 false "hello" s2 = (s2, []) := by
  have h := spec_c2_digit_extraction s2 3 9 42 "hello" (by decide) (by decide) (by decide)
  exact ⟨h.1, h.2 (by decide)⟩

/-- C3: in a reachable active, unpaused, unexpired state, a message whose
extracted guess equals the hidden number records the offset-0 best and
triggers `finalize_round` within the same message-processing step: the
result of `process_message` is exactly the record step followed by the
finalize step. -/
theorem spec_c3_exact_match_finalizes (g : GameState) (now rand authorId : Int)
    (content : String) (hr : Reachable g)
    (hact : g.active = true) (hp : g.paused = false)
    (hexp : expired now g = false)
    (hg : guessOf content = some g.number) :
    process_message now rand authorId false content g =
      ((finalize_round rand now
          { g with closest_offset := some 0, winning_user_id := some authorId }).1,
       [Output.logImprove g.closest_offset 0 authorId, Output.saveState] ++
         (finalize_round rand now
           { g with closest_offset := some 0, winning_user_id := some authorId }).2) := by
  obtain ⟨h1, h2, h3, h4, h5, h6, h7, h8, h9⟩ := reachable_inv hr
  have hrange := h7 hact
  have himp : improves 0 g.closest_offset = true := by
    rw [improves_iff]
    cases hc : g.closest_offset with
    | none => exact Or.inl rfl
    | some c =>
        refine Or.inr ⟨c, rfl, ?_⟩
        have hc0 := h6 c hc
        have hne := h5 hact
        rw [hc] at hne
        have : c ≠ 0 := fun h => hne (by rw [h])
        omega
  unfold process_message
  simp [hact, hp, hexp, hg, not_lt.mpr hrange.1, not_lt.mpr hrange.2, himp]

theorem spec_c3_witness :
    process_message 3 9 42 false "5" s2 =
      ((finalize_round 9 3
          { s2 with closest_offset := some 0, winning_user_id := some 42 }).1,
       [Output.logImprove none 0 42, Output.saveState] ++
         (finalize_round 9 3
           { s2 with closest_offset := some 0, winning_user_id := some 42 }).2) :=
  (spec_c3_exact_match_finalizes s2 3 9 42 "5" reachable_s2 (by decide) (by decide)
      (by decide) (by decide)).trans (by decide)

/-- C4: in every reachable state the round counter never exceeds the round
total; and when `finalize_round` runs with `current_round = total_rounds`
(the last round) it resets `paused` to false, both round counters to 0 and
the key pool to empty. -/
theorem spec_c4_round_bound_and_reset (g : GameState) (rand now : Int)
    (hr : Reachable g) :
    g.current_round ≤ g.total_rounds ∧
    (g.current_round = g.total_rounds →
      (finalize_round rand now g).1.paused = false ∧
      (finalize_round rand now g).1.current_round = 0 ∧
      (finalize_round rand now g).1.total_rounds = 0 ∧
      (finalize_round rand now g).1.keys = []) := by
  refine ⟨(reachable_inv hr).2.1, ?_⟩
  intro heq
  unfold finalize_round
  dsimp only
  rw [finalize_begin_fst]
  unfold finalize_end
  rw [if_neg (show ¬(({ g with active := false } : GameState).current_round <
      ({ g with active := false } : GameState).total_rounds) by dsimp only; omega)]
  simp

theorem spec_c4_witness :
    s2.current_round ≤ s2.total_rounds ∧
    (s2.current_round = s2.total_rounds →
      (finalize_round 3 20 s2).1.paused = false ∧
      (finalize_round 3 20 s2).1.current_round = 0 ∧
      (finalize_round 3 20 s2).1.total_rounds = 0 ∧
      (finalize_round 3 20 s2).1.keys = []) :=
  spec_c4_round_bound_and_reset s2 3 20 reachable_s2

/-- C5 fails on the code: `game_init` on an inactive channel sets
`closest_offset = 0` while leaving `winning_user_id = None`
(src/main.py lines 333-334), so the reachable state right after `/game init`
has a present `closest_offset` and an absent `winning_user_id`. -/
theorem spec_c5_counterexample :
    Reachable (init_op 0 500 10 (GameState.new 1)) ∧
      ¬ pairOK (init_op 0 500 10 (GameState.new 1)) :=
  ⟨Reachable.step (Reachable.base 1) (Step.init (GameState.new 1) 0 500 10),
   by unfold pairOK; decide⟩

/-- C5 amended: in every reachable state, `closest_offset` and
`winning_user_id` are both present or both absent, except in the idle state
produced by `game_init`, where `closest_offset = 0` with no winning user. -/
theorem spec_c5_amended (g : GameState) (hr : Reachable g) :
    pairOK g ∨ (g.active = false ∧ g.paused = false ∧
      g.closest_offset = some 0 ∧ g.winning_user_id = none) :=
  (reachable_inv hr).2.2.1

theorem spec_c5_amended_witness :
    pairOK (GameState.new 1) ∨ ((GameState.new 1).active = false ∧
      (GameState.new 1).paused = false ∧
      (GameState.new 1).closest_offset = some 0 ∧
      (GameState.new 1).winning_user_id = none) :=
  spec_c5_amended (GameState.new 1) (Reachable.base 1)

/-- C6 fails on the code: `game_pause` clears `active` but never clears
`end_time` (src/main.py lines 530-533), so after start-then-pause the state
has `active = false` with `end_time` still present. -/
theorem spec_c6_counterexample :
    Reachable (pause_op s2) ∧ (pause_op s2).active = false ∧
      (pause_op s2).end_time.isSome = true :=
  ⟨Reachable.step reachable_s2 (Step.pause s2), by decide, by decide⟩

/-- C6 amended: in every reachable state, `end_time` is present whenever
`active` is true (the converse fails: pause, stop and game completion leave
the stale deadline in place). -/
theorem spec_c6_amended (g : GameState) (hr : Reachable g)
    (hact : g.active = true) : g.end_time.isSome = true :=
  (reachable_inv hr).2.2.2.1 hact

theorem spec_c6_amended_witness : s2.end_time.isSome = true :=
  spec_c6_amended s2 reachable_s2 (by decide)

/-- An arbitrary (not reachable) state exercising the missing-key branch of
`finalize_round`: a recorded winner but `current_round > len(keys)`. -/
def gBad : GameState :=
  { GameState.new 2 with
      winning_user_id := some 7
      closest_offset := some 3
      current_round := 5
      total_rounds := 5
      keys := [] }

/-- C10: the reward lookup `keys[current_round - 1]` in `finalize_round` is
guarded by `current_round <= len(keys)` and, in every reachable active state,
that guarded lookup is in bounds (never an `IndexError`; at
`current_round = 0` the Python index `-1` wraps to the last key rather than
failing); and in any state with a (truthy) winner but
`current_round > len(keys)`, finalize still announces the winner while
skipping the reward-delivery block entirely — no reward attempt and no
in-channel notice about the missing key. -/
theorem spec_c10_reward_bounds (g : GameState) (rand now : Int) :
    (Reachable g → g.active = true → g.current_round ≤ (g.keys.length : Int) →
      (pyGet g.keys (g.current_round - 1)).isSome = true) ∧
    (∀ u, g.winning_user_id = some u → u ≠ 0 →
      (g.keys.length : Int) < g.current_round →
      (finalize_round rand now g).2 =
        Output.channelMsg (ChannelMsg.winner u g.number g.closest_offset
            g.current_round g.total_rounds) ::
          (finalize_end rand now { g with active := false }).2 ∧
      ∀ o ∈ (finalize_round rand now g).2, ∀ uid ki, o ≠ Output.rewardAttempt uid ki) := by
  constructor
  · intro hr hact hle
    obtain ⟨h1, h2, h3, h4, h5, h6, h7, h8, h9⟩ := reachable_inv hr
    have hk := h8 hact
    have hpos : 0 < g.keys.length := List.length_pos.mpr hk
    exact pyGet_isSome g.keys (g.current_round - 1) (by omega) (by omega)
  · intro u hu hu0 hgt
    have ht : truthyUser (some u) = some u := by simp [truthyUser, hu0]
    have hb : finalize_begin g =
        ({ g with active := false },
         [Output.channelMsg (ChannelMsg.winner u g.number g.closest_offset
            g.current_round g.total_rounds)]) := by
      unfold finalize_begin
      dsimp only
      rw [hu, ht]
      dsimp only
      rw [if_neg (show ¬ g.current_round ≤ (g.keys.length : Int) by omega)]
    constructor
    · unfold finalize_round
      rw [hb]
      simp
    · intro o ho uid ki
      unfold finalize_round at ho
      rw [hb] at ho
      dsimp only at ho
      rw [List.mem_append] at ho
      rcases ho with ho | ho
      · simp at ho
        simp [ho]
      · exact finalize_end_no_reward rand now _ o ho uid ki

/-! ## C7: startup restore (`load_state` / `GameState.from_dict`) -/

/-- One record of the persisted snapshot as raw JSON data: each field either
present (`some`) or absent (`none`).  `end_time` stands for an already-parsed
ISO-8601 instant or a JSON null/absent field (the source collapses both to
`None` via `data.get`). -/
structure RawEntry where
  channel_id : Option Int
  active : Option Bool
  paused : Option Bool
  number : Option Int
  min_number : Option Int
  max_number : Option Int
  timeout_minutes : Option Int
  end_time : Option Int
  closest_offset : Option Int
  winning_user_id : Option Int
  keys : Option (List KeyEntry)
  current_round : Option Int
  total_rounds : Option Int
deriving DecidableEq

/-- `GameState.from_dict` (src/main.py lines 70-90): `data["channel_id"]` is a
bare subscript, so a record without it raises (`none`); every other field
falls back to the schema default via `data.get`. -/
def GameState.from_dict (r : RawEntry) : Option GameState :=
  match r.channel_id with
  | none => none
  | some cid =>
      some
        { channel_id := cid
          active := r.active.getD false
          paused := r.paused.getD false
          number := r.number.getD 0
          min_number := r.min_number.getD 0
          max_number := r.max_number.getD 500
          timeout_minutes := r.timeout_minutes.getD 10
          end_time := r.end_time
          closest_offset := r.closest_offset
          winning_user_id := r.winning_user_id
          keys := r.keys.getD []
          current_round := r.current_round.getD 0
          total_rounds := r.total_rounds.getD 0 }

/-- The entry loop of `load_state`: the `try` block wraps the whole loop, so
the first entry whose parse raises aborts the remaining iterations (the
exception is caught and logged outside the loop); entries already inserted
into `self.games` stay. -/
def load_entries : List (Int × RawEntry) → List (Int × GameState)
  | [] => []
  | e :: rest =>
      match GameState.from_dict e.2 with
      | some st => (e.1, st) :: load_entries rest
      | none => []

/-- `NumberGuessBot.load_state` (src/main.py lines 101-114): `none` models an
absent snapshot file (`os.path.exists` false), which is logged as a fresh
start and loads nothing; `some entries` models the parsed JSON mapping in
iteration order. -/
def load_state (file : Option (List (Int × RawEntry))) : List (Int × GameState) :=
  match file with
  | none => []
  | some entries => load_entries entries

/-- A snapshot record with every field absent (fails to parse: no
`channel_id`). -/
def rawEmpty : RawEntry :=
  ⟨none, none, none, none, none, none, none, none, none, none, none, none, none⟩

/-- A minimal parseable snapshot record. -/
def rawGood (cid : Int) : RawEntry := { rawEmpty with channel_id := some cid }

/-- C7 fails on the code: in `load_state` the `try` wraps the whole entry
loop (src/main.py lines 104-112), so one malformed entry aborts the load of
every entry after it.  With a snapshot [good 1, bad, good 3], entry 3 parses
fine on its own yet is not loaded. -/
theorem spec_c7_counterexample :
    (GameState.from_dict (rawGood 3)).isSome = true ∧
    (load_state (some [(1, rawGood 1), (2, rawEmpty), (3, rawGood 3)])).lookup 3 = none ∧
    (load_state (some [(1, rawGood 1), (2, rawEmpty), (3, rawGood 3)])).length = 1 := by
  refine ⟨by decide, by decide, by decide⟩

/-- C7 amended: entries are loaded in snapshot order up to, but not
including, the first entry that fails to parse; that failure (logged) aborts
the rest of the load, while the entries before it remain loaded.  A missing
snapshot file is not an error: the registry starts empty. -/
theorem spec_c7_amended (pre post : List (Int × RawEntry)) (x : Int × RawEntry)
    (hpre : ∀ p ∈ pre, (GameState.from_dict p.2).isSome = true)
    (hx : GameState.from_dict x.2 = none) :
    load_state none = [] ∧
    load_state (some (pre ++ x :: post)) =
      pre.filterMap (fun p => (GameState.from_dict p.2).map (fun st => (p.1, st))) := by
  refine ⟨rfl, ?_⟩
  show load_entries (pre ++ x :: post) = _
  induction pre with
  | nil => simp [load_entries, hx]
  | cons a t ih =>
      have ha := hpre a (by simp)
      obtain ⟨st, hst⟩ := Option.isSome_iff_exists.mp ha
      have iht := ih (fun p hp => hpre p (by simp [hp]))
      simp [load_entries, hst, iht]

theorem spec_c7_amended_witness :
    load_state none = [] ∧
    load_state (some ([(1, rawGood 1)] ++ (2, rawEmpty) :: [(3, rawGood 3)])) =
      [((1 : Int), rawGood 1)].filterMap
        (fun p => (GameState.from_dict p.2).map (fun st => (p.1, st))) :=
  spec_c7_amended [(1, rawGood 1)] [(3, rawGood 3)] (2, rawEmpty)
    (by decide) (by decide)

/-! ## C8: `game_addkeymulti` line parsing -/

/-- The claim's reading of bulk parsing: split each stripped line on the last
*whitespace run* (any maximal block of whitespace characters) into
`(game_name, key)`; blank lines and lines with no whitespace are skipped. -/
def lastWsRunSplit (line : String) : Option KeyEntry :=
  let l := trimChars line.data
  if l = [] then none
  else
    let r := l.reverse
    let keyRev := r.takeWhile (fun c => !c.isWhitespace)
    let rest := (r.dropWhile (fun c => !c.isWhitespace)).dropWhile Char.isWhitespace
    if rest = [] then none
    else some ⟨String.mk rest.reverse, String.mk keyRev.reverse⟩

/-- C8 fails on the code: `game_addkeymulti` splits on the last *space
character* (`rsplit(' ', 1)`) and skips any line containing no space
(src/main.py lines 369-371), which matches its own option description
("Line will be split on the last space") but not the claim's "last
whitespace run": a tab-separated line is skipped entirely by the code, while
splitting on the last whitespace run would accept it. -/
theorem spec_c8_counterexample :
    (addkeymulti_op ["Name\tK1"] (GameState.new 1)).keys = [] ∧
    lastWsRunSplit "Name\tK1" = some ⟨"Name", "K1"⟩ := by
  constructor <;> decide

/-- C8 amended: `addkeymulti` parses each line by stripping it and splitting
on the last space character into `(game_name, key)` (both stripped), skips
lines that are blank after stripping or contain no space character, appends
the parsed pairs to `keys` in line order, and, when the game is active,
increases `total_rounds` by exactly the number of pairs added; no other
field changes. -/
theorem spec_c8_amended (lines : List String) (g : GameState) :
    (addkeymulti_op lines g).keys = g.keys ++ lines.filterMap parse_line ∧
    (addkeymulti_op lines g).total_rounds = g.total_rounds +
      (if g.active then ((lines.filterMap parse_line).length : Int) else 0) ∧
    (addkeymulti_op lines g).active = g.active ∧
    (addkeymulti_op lines g).paused = g.paused ∧
    (addkeymulti_op lines g).current_round = g.current_round ∧
    (addkeymulti_op lines g).closest_offset = g.closest_offset ∧
    (addkeymulti_op lines g).winning_user_id = g.winning_user_id ∧
    (addkeymulti_op lines g).end_time = g.end_time ∧
    (addkeymulti_op lines g).number = g.number := by
  unfold addkeymulti_op
  rw [addKeys_fold_spec]
  dsimp only
  by_cases ha : g.active = true
  · simp [ha]
  · have ha' : g.active = false := by
      cases h : g.active
      · rfl
      · exact absurd h ha
    simp [ha']

/-! ## C9: the dual finalize triggers under cooperative interleaving

The source runs on a single asyncio event loop: a coroutine executes
atomically between `await` points.  The inbound-message path
(`process_message` on an exact match) and one `check_timeouts` scan of the
same channel are modelled as two tasks of two atomic segments each, split at
the first suspension point inside `finalize_round` (the winner-announcement
`channel.send`): every state mutation before that await — the guard checks,
the best-guess record, and `finalize_begin`'s synchronous
`game.active = False` — forms the first segment, and the round
advance/completion (`finalize_end`) the second.  `REvent` logs, tagged with
the round being closed, each entry into the finalize body and each round
advance, so "one finalize per round boundary" is a statement about the log. -/

inductive REvent where
  | finBegin (round : Int)
  | adv (fromRound : Int)
  | reset
deriving DecidableEq

/-- Shared channel state plus the event log and each task's private
"I entered finalize" continuation flag. -/
structure Sys where
  g : GameState
  log : List REvent
  mEnt : Bool
  tEnt : Bool
deriving DecidableEq

/-- The log entry for the second half of finalize: an advance from the
current round, or the end-of-game reset. -/
def endEvent (g : GameState) : REvent :=
  if g.current_round < g.total_rounds then REvent.adv g.current_round else REvent.reset

/-- Message task, first atomic segment: the guards and best-guess record of
`process_message` and, on either finalize path (elapsed deadline or exact
match), `finalize_begin`. -/
def msg_seg1 (now authorId : Int) (content : String) (s : Sys) : Sys :=
  let g := s.g
  if !g.active || g.paused then s
  else if expired now g then
    { s with g := (finalize_begin g).1,
             log := s.log ++ [REvent.finBegin g.current_round], mEnt := true }
  else
    match guessOf content with
    | none => s
    | some n =>
        if n < g.min_number || g.max_number < n then s
        else
          let off := |g.number - n|
          if improves off g.closest_offset then
            let g' := { g with closest_offset := some off, winning_user_id := some authorId }
            if off = 0 then
              { s with g := (finalize_begin g').1,
                       log := s.log ++ [REvent.finBegin g'.current_round], mEnt := true }
            else { s with g := g' }
          else s

/-- Message task, second atomic segment: the rest of `finalize_round` when
the first segment entered it. -/
def msg_seg2 (rand now : Int) (s : Sys) : Sys :=
  if s.mEnt then
    { s with g := (finalize_end rand now s.g).1, log := s.log ++ [endEvent s.g] }
  else s

/-- Scheduler task, first atomic segment: the `check_timeouts` guards and, on
an elapsed deadline, `finalize_begin`. -/
def tick_seg1 (now : Int) (s : Sys) : Sys :=
  let g := s.g
  if g.active && !g.paused && g.end_time.isSome then
    if expired now g then
      { s with g := (finalize_begin g).1,
               log := s.log ++ [REvent.finBegin g.current_round], tEnt := true }
    else s
  else s

/-- Scheduler task, second atomic segment. -/
def tick_seg2 (rand now : Int) (s : Sys) : Sys :=
  if s.tEnt then
    { s with g := (finalize_end rand now s.g).1, log := s.log ++ [endEvent s.g] }
  else s

def runSched (sched : List (Sys → Sys)) (s : Sys) : Sys :=
  sched.foldl (fun s f => f s) s

/-- All order-preserving interleavings of the two two-segment tasks. -/
def interleavings (m1 m2 t1 t2 : Sys → Sys) : List (List (Sys → Sys)) :=
  [[m1, m2, t1, t2], [m1, t1, m2, t2], [m1, t1, t2, m2],
   [t1, m1, m2, t2], [t1, m1, t2, m2], [t1, t2, m1, m2]]

/-- Run without interference, the segmented message task computes exactly
`process_message` (so the split is faithful to the source). -/
theorem msg_segs_run (now rand authorId : Int) (content : String) (g : GameState) :
    (msg_seg2 rand now (msg_seg1 now authorId content ⟨g, [], false, false⟩)).g =
      (process_message now rand authorId false content g).1 := by
  by_cases h1 : (!g.active || g.paused) = true
  · simp [msg_seg1, process_message, h1, msg_seg2]
  · rw [Bool.not_eq_true] at h1
    by_cases h2 : expired now g = true
    · simp [msg_seg1, process_message, h1, h2, msg_seg2, finalize_round]
    · rw [Bool.not_eq_true] at h2
      cases hgo : guessOf content with
      | none => simp [msg_seg1, process_message, h1, h2, hgo, msg_seg2]
      | some n =>
          by_cases h3 : (n < g.min_number || g.max_number < n) = true
          · simp [msg_seg1, process_message, h1, h2, hgo, h3, msg_seg2]
          · rw [Bool.not_eq_true] at h3
            by_cases h4 : improves |g.number - n| g.closest_offset = true
            · by_cases h5 : |g.number - n| = 0
              · rw [h5] at h4
                simp [msg_seg1, process_message, h1, h2, hgo, h3, h4, h5, msg_seg2,
                  finalize_round]
              · simp [msg_seg1, process_message, h1, h2, hgo, h3, h4, h5, msg_seg2]
            · rw [Bool.not_eq_true] at h4
              simp [msg_seg1, process_message, h1, h2, hgo, h3, h4, msg_seg2]

/-- Run without interference, the segmented scheduler task computes exactly
`tick_op`. -/
theorem tick_segs_run (now rand : Int) (g : GameState) :
    (tick_seg2 rand now (tick_seg1 now ⟨g, [], false, false⟩)).g = tick_op now rand g := by
  by_cases h1 : (g.active && !g.paused && g.end_time.isSome) = true
  · by_cases h2 : expired now g = true
    · simp [tick_seg1, tick_op, h1, h2, tick_seg2, finalize_round]
    · rw [Bool.not_eq_true] at h2
      simp [tick_seg1, tick_op, h1, h2, tick_seg2]
  · rw [Bool.not_eq_true] at h1
    simp [tick_seg1, tick_op, h1, tick_seg2]

theorem msg_seg1_inactive (now authorId : Int) (content : String) (s : Sys)
    (h : s.g.active = false) : msg_seg1 now authorId content s = s := by
  simp [msg_seg1, h]

theorem tick_seg1_inactive (now : Int) (s : Sys)
    (h : s.g.active = false) : tick_seg1 now s = s := by
  simp [tick_seg1, h]

theorem tick_seg1_unexpired (now : Int) (s : Sys)
    (h : expired now s.g = false) : tick_seg1 now s = s := by
  simp [tick_seg1, h]

theorem msg_seg1_exact (now authorId guess : Int) (content : String) (g : GameState)
    (l : List REvent) (tE : Bool)
    (hact : g.active = true) (hp : g.paused = false)
    (hexp : expired now g = false)
    (hg : guessOf content = some guess)
    (hlo : g.min_number ≤ guess) (hhi : guess ≤ g.max_number)
    (hoff : |g.number - guess| = 0)
    (himp : improves 0 g.closest_offset = true) :
    msg_seg1 now authorId content ⟨g, l, false, tE⟩ =
      ⟨{ g with
           closest_offset := some 0
           winning_user_id := some authorId
           active := false },
       l ++ [REvent.finBegin g.current_round], true, tE⟩ := by
  unfold msg_seg1
  dsimp only
  rw [if_neg (show ¬((!g.active || g.paused) = true) by simp [hact, hp])]
  rw [hexp]
  simp only [Bool.false_eq_true, if_false]
  rw [hg]
  dsimp only
  rw [if_neg (by simp [not_lt.mpr hlo, not_lt.mpr hhi])]
  rw [hoff, if_pos himp, if_pos rfl, finalize_begin_fst]

theorem msg_seg1_improve (now authorId guess : Int) (content : String) (g : GameState)
    (l : List REvent) (tE : Bool)
    (hact : g.active = true) (hp : g.paused = false)
    (hexp : expired now g = false)
    (hg : guessOf content = some guess)
    (hlo : g.min_number ≤ guess) (hhi : guess ≤ g.max_number)
    (hoff : |g.number - guess| ≠ 0)
    (himp : improves |g.number - guess| g.closest_offset = true) :
    msg_seg1 now authorId content ⟨g, l, false, tE⟩ =
      ⟨{ g with
           closest_offset := some |g.number - guess|
           winning_user_id := some authorId }, l, false, tE⟩ := by
  unfold msg_seg1
  dsimp only
  rw [if_neg (show ¬((!g.active || g.paused) = true) by simp [hact, hp])]
  rw [hexp]
  simp only [Bool.false_eq_true, if_false]
  rw [hg]
  dsimp only
  rw [if_neg (by simp [not_lt.mpr hlo, not_lt.mpr hhi])]
  rw [if_pos himp, if_neg hoff]

theorem tick_seg1_enters (now : Int) (g : GameState) (l : List REvent) (mE : Bool)
    (hact : g.active = true) (hp : g.paused = false)
    (hsome : g.end_time.isSome = true) (hexp : expired now g = true) :
    tick_seg1 now ⟨g, l, mE, false⟩ =
      ⟨{ g with active := false }, l ++ [REvent.finBegin g.current_round], mE, true⟩ := by
  unfold tick_seg1
  dsimp only
  rw [if_pos (show (g.active && !g.paused && g.end_time.isSome) = true by
    simp [hact, hp, hsome])]
  rw [hexp]
  simp only [if_true]
  rw [finalize_begin_fst]

theorem msg_seg2_on (rand now : Int) (x : GameState) (l : List REvent) (tE : Bool) :
    msg_seg2 rand now ⟨x, l, true, tE⟩ =
      ⟨(finalize_end rand now x).1, l ++ [endEvent x], true, tE⟩ := rfl

theorem msg_seg2_off (rand now : Int) (x : GameState) (l : List REvent) (tE : Bool) :
    msg_seg2 rand now ⟨x, l, false, tE⟩ = ⟨x, l, false, tE⟩ := rfl

theorem tick_seg2_on (rand now : Int) (x : GameState) (l : List REvent) (mE : Bool) :
    tick_seg2 rand now ⟨x, l, mE, true⟩ =
      ⟨(finalize_end rand now x).1, l ++ [endEvent x], mE, true⟩ := rfl

theorem tick_seg2_off (rand now : Int) (x : GameState) (l : List REvent) (mE : Bool) :
    tick_seg2 rand now ⟨x, l, mE, false⟩ = ⟨x, l, mE, false⟩ := rfl

theorem finalize_end_advance (rand now : Int) (g : GameState)
    (h : g.current_round < g.total_rounds) :
    (finalize_end rand now g).1 = start_round rand now g := by
  unfold finalize_end
  rw [if_pos h]

theorem endEvent_advance (g : GameState) (h : g.current_round < g.total_rounds) :
    endEvent g = REvent.adv g.current_round := by
  unfold endEvent
  rw [if_pos h]

theorem endEvent_ne (g : GameState) (r : Int) (h : g.current_round ≠ r) :
    endEvent g ≠ REvent.adv r ∧ endEvent g ≠ REvent.finBegin r := by
  unfold endEvent
  split <;> simp [h]

/-- The state left by the message task's first segment after recording the
exact match and entering finalize. -/
def mDead (g : GameState) (authorId : Int) : GameState :=
  { g with closest_offset := some 0, winning_user_id := some authorId, active := false }

/-- The state left by the scheduler task's first segment after entering
finalize. -/
def tDead (g : GameState) : GameState := { g with active := false }

theorem msg_seg1_inactive' (now authorId : Int) (content : String) (x : GameState)
    (l : List REvent) (mE tE : Bool) (h : x.active = false) :
    msg_seg1 now authorId content ⟨x, l, mE, tE⟩ = ⟨x, l, mE, tE⟩ := by
  simp [msg_seg1, h]

theorem tick_seg1_inactive' (now : Int) (x : GameState)
    (l : List REvent) (mE tE : Bool) (h : x.active = false) :
    tick_seg1 now ⟨x, l, mE, tE⟩ = ⟨x, l, mE, tE⟩ := by
  simp [tick_seg1, h]

theorem tick_seg1_unexpired' (now : Int) (x : GameState)
    (l : List REvent) (mE tE : Bool) (h : expired now x = false) :
    tick_seg1 now ⟨x, l, mE, tE⟩ = ⟨x, l, mE, tE⟩ := by
  simp [tick_seg1, h]

/-- A round freshly advanced at time `now` is not yet expired at any instant
before `now + timeout`. -/
theorem expired_start_round (nowX rand now : Int) (g : GameState)
    (h : nowX < now + g.timeout_minutes) :
    expired nowX (start_round rand now g) = false := by
  unfold expired start_round
  dsimp only
  exact decide_eq_false (by omega)

theorem msg_seg1_exact' (now authorId guess : Int) (content : String) (g : GameState)
    (l : List REvent) (tE : Bool)
    (hact : g.active = true) (hp : g.paused = false)
    (hexp : expired now g = false)
    (hg : guessOf content = some guess)
    (hlo : g.min_number ≤ guess) (hhi : guess ≤ g.max_number)
    (hoff : |g.number - guess| = 0)
    (himp : improves 0 g.closest_offset = true) :
    msg_seg1 now authorId content ⟨g, l, false, tE⟩ =
      ⟨mDead g authorId, l ++ [REvent.finBegin g.current_round], true, tE⟩ :=
  msg_seg1_exact now authorId guess content g l tE hact hp hexp hg hlo hhi hoff himp

theorem tick_seg1_enters' (now : Int) (g : GameState) (l : List REvent) (mE : Bool)
    (hact : g.active = true) (hp : g.paused = false)
    (hsome : g.end_time.isSome = true) (hexp : expired now g = true) :
    tick_seg1 now ⟨g, l, mE, false⟩ =
      ⟨tDead g, l ++ [REvent.finBegin g.current_round], mE, true⟩ :=
  tick_seg1_enters now g l mE hact hp hsome hexp

/-- C9: under the source's cooperative (asyncio) execution model, when an
exact-match guess (message evaluated just before the deadline) and a
scheduler timeout tick (just after it) race for the same round of the same
channel, every order-preserving interleaving of the two tasks' atomic
segments yields exactly one finalize entry and exactly one round advance
tagged with that round: whichever trigger runs first clears `active` inside
its first atomic segment, so the later trigger observes `active = false` (or
a fresh, unexpired next round) and never finalizes that round again. -/
theorem spec_c9_single_finalize
    (g0 : GameState) (t guess authorId : Int) (content : String)
    (now_m now_t now_m2 now_t2 rand_m rand_t : Int)
    (hact : g0.active = true) (hp : g0.paused = false)
    (het : g0.end_time = some t)
    (hnm : now_m < t) (hnt : t ≤ now_t)
    (hg : guessOf content = some guess) (hguess : guess = g0.number)
    (hlo : g0.min_number ≤ guess) (hhi : guess ≤ g0.max_number)
    (hclosest : g0.closest_offset = none ∨ ∃ c, g0.closest_offset = some c ∧ 0 < c)
    (hrounds : g0.current_round < g0.total_rounds)
    (hT : now_t < now_m2 + g0.timeout_minutes)
    (hM : now_m < now_t2 + g0.timeout_minutes) :
    (∀ sched ∈ interleavings (msg_seg1 now_m authorId content) (msg_seg2 rand_m now_m2)
        (tick_seg1 now_t) (tick_seg2 rand_t now_t2),
      (runSched sched ⟨g0, [], false, false⟩).log.count
          (REvent.finBegin g0.current_round) = 1 ∧
      (runSched sched ⟨g0, [], false, false⟩).log.count
          (REvent.adv g0.current_round) = 1) ∧
    (∀ l mE tE, msg_seg1 now_m authorId content ⟨tDead g0, l, mE, tE⟩ =
        ⟨tDead g0, l, mE, tE⟩) ∧
    (∀ l mE tE, tick_seg1 now_t ⟨mDead g0 authorId, l, mE, tE⟩ =
        ⟨mDead g0 authorId, l, mE, tE⟩) := by
  refine ⟨?_, fun l mE tE => msg_seg1_inactive' now_m authorId content _ l mE tE rfl,
    fun l mE tE => tick_seg1_inactive' now_t _ l mE tE rfl⟩
  intro sched hs
  have hexpm : expired now_m g0 = false := by
    unfold expired
    rw [het]
    exact decide_eq_false (by omega)
  have hexpt : expired now_t g0 = true := by
    unfold expired
    rw [het]
    exact decide_eq_true (by omega)
  have hsome : g0.end_time.isSome = true := by rw [het]; rfl
  have himp0 : improves 0 g0.closest_offset = true := by
    rw [improves_iff]
    rcases hclosest with h | ⟨c, hc, hcpos⟩
    · exact Or.inl h
    · exact Or.inr ⟨c, hc, hcpos⟩
  have hoff0 : |g0.number - guess| = 0 := by rw [hguess]; simp
  have hmdead_adv : (finalize_end rand_m now_m2 (mDead g0 authorId)).1 =
      start_round rand_m now_m2 (mDead g0 authorId) :=
    finalize_end_advance rand_m now_m2 (mDead g0 authorId) hrounds
  have htdead_adv : (finalize_end rand_t now_t2 (tDead g0)).1 =
      start_round rand_t now_t2 (tDead g0) :=
    finalize_end_advance rand_t now_t2 (tDead g0) hrounds
  have hmdead_end : endEvent (mDead g0 authorId) = REvent.adv g0.current_round :=
    endEvent_advance (mDead g0 authorId) hrounds
  have htdead_end : endEvent (tDead g0) = REvent.adv g0.current_round :=
    endEvent_advance (tDead g0) hrounds
  simp only [interleavings, List.mem_cons, List.not_mem_nil, or_false] at hs
  rcases hs with rfl | rfl | rfl | rfl | rfl | rfl
  · -- M1 M2 T1 T2
    unfold runSched
    simp only [List.foldl_cons, List.foldl_nil]
    rw [msg_seg1_exact' now_m authorId guess content g0 [] false hact hp hexpm hg hlo hhi
      hoff0 himp0]
    rw [msg_seg2_on, hmdead_adv, hmdead_end]
    rw [tick_seg1_unexpired' now_t _ _ _ _
      (expired_start_round now_t rand_m now_m2 (mDead g0 authorId) hT)]
    rw [tick_seg2_off]
    constructor <;> simp [List.count_append, List.count_cons, List.count_nil]
  · -- M1 T1 M2 T2
    unfold runSched
    simp only [List.foldl_cons, List.foldl_nil]
    rw [msg_seg1_exact' now_m authorId guess content g0 [] false hact hp hexpm hg hlo hhi
      hoff0 himp0]
    rw [tick_seg1_inactive' now_t _ _ _ _ rfl]
    rw [msg_seg2_on, hmdead_adv, hmdead_end]
    rw [tick_seg2_off]
    constructor <;> simp [List.count_append, List.count_cons, List.count_nil]
  · -- M1 T1 T2 M2
    unfold runSched
    simp only [List.foldl_cons, List.foldl_nil]
    rw [msg_seg1_exact' now_m authorId guess content g0 [] false hact hp hexpm hg hlo hhi
      hoff0 himp0]
    rw [tick_seg1_inactive' now_t _ _ _ _ rfl]
    rw [tick_seg2_off]
    rw [msg_seg2_on, hmdead_adv, hmdead_end]
    constructor <;> simp [List.count_append, List.count_cons, List.count_nil]
  · -- T1 M1 M2 T2
    unfold runSched
    simp only [List.foldl_cons, List.foldl_nil]
    rw [tick_seg1_enters' now_t g0 [] false hact hp hsome hexpt]
    rw [msg_seg1_inactive' now_m authorId content _ _ _ _ rfl]
    rw [msg_seg2_off]
    rw [tick_seg2_on, htdead_adv, htdead_end]
    constructor <;> simp [List.count_append, List.count_cons, List.count_nil]
  · -- T1 M1 T2 M2
    unfold runSched
    simp only [List.foldl_cons, List.foldl_nil]
    rw [tick_seg1_enters' now_t g0 [] false hact hp hsome hexpt]
    rw [msg_seg1_inactive' now_m authorId content _ _ _ _ rfl]
    rw [tick_seg2_on, htdead_adv, htdead_end]
    rw [msg_seg2_off]
    constructor <;> simp [List.count_append, List.count_cons, List.count_nil]
  · -- T1 T2 M1 M2: the tick finalizes and advances first; the stale message
    -- is then evaluated against the fresh round and may even start a new
    -- finalize for that *next* round, but never for round `current_round`.
    unfold runSched
    simp only [List.foldl_cons, List.foldl_nil]
    rw [tick_seg1_enters' now_t g0 [] false hact hp hsome hexpt]
    rw [tick_seg2_on, htdead_adv, htdead_end]
    have hA : (start_round rand_t now_t2 (tDead g0)).current_round =
        g0.current_round + 1 := rfl
    have hexpA : expired now_m (start_round rand_t now_t2 (tDead g0)) = false :=
      expired_start_round now_m rand_t now_t2 (tDead g0) hM
    have hne : g0.current_round + 1 ≠ g0.current_round := by omega
    by_cases hz : |(start_round rand_t now_t2 (tDead g0)).number - guess| = 0
    · rw [msg_seg1_exact' now_m authorId guess content _ _ _ rfl rfl hexpA hg hlo hhi hz rfl]
      rw [msg_seg2_on]
      have hend := endEvent_ne (mDead (start_round rand_t now_t2 (tDead g0)) authorId)
        g0.current_round (by rw [show (mDead (start_round rand_t now_t2 (tDead g0))
          authorId).current_round = g0.current_round + 1 from rfl]; omega)
      constructor <;>
        simp [List.count_append, List.count_cons, List.count_nil, hA, hne,
          hend.1, hend.2]
    · rw [msg_seg1_improve now_m authorId guess content _ _ _ rfl rfl hexpA hg hlo hhi hz rfl]
      rw [msg_seg2_off]
      constructor <;> simp [List.count_append, List.count_cons, List.count_nil]

/-- A concrete racing scenario: round 1/2 active with hidden number 5 and
deadline 10; the exact guess "5" is evaluated at time 9 while the scheduler
tick fires at time 10. -/
def c9init : GameState :=
  { GameState.new 5 with
      active := true
      number := 5
      end_time := some 10
      current_round := 1
      total_rounds := 2
      keys := [⟨"A", "K1"⟩, ⟨"B", "K2"⟩] }

theorem spec_c9_witness :
    (∀ sched ∈ interleavings (msg_seg1 9 42 "5") (msg_seg2 3 11) (tick_seg1 10)
        (tick_seg2 4 11),
      (runSched sched ⟨c9init, [], false, false⟩).log.count
          (REvent.finBegin c9init.current_round) = 1 ∧
      (runSched sched ⟨c9init, [], false, false⟩).log.count
          (REvent.adv c9init.current_round) = 1) ∧
    (∀ l mE tE, msg_seg1 9 42 "5" ⟨tDead c9init, l, mE, tE⟩ = ⟨tDead c9init, l, mE, tE⟩) ∧
    (∀ l mE tE, tick_seg1 10 ⟨mDead c9init 42, l, mE, tE⟩ = ⟨mDead c9init 42, l, mE, tE⟩) :=
  spec_c9_single_finalize c9init 10 5 42 "5" 9 10 11 11 3 4 rfl rfl rfl
    (by decide) (by decide) (by decide) rfl (by decide) (by decide)
    (Or.inl rfl) (by decide) (by decide) (by decide)

theorem spec_c10_witness :
    (pyGet s3.keys (s3.current_round - 1)).isSome = true ∧
    ((finalize_round 11 30 gBad).2 =
        Output.channelMsg (ChannelMsg.winner 7 gBad.number gBad.closest_offset
            gBad.current_round gBad.total_rounds) ::
          (finalize_end 11 30 { gBad with active := false }).2 ∧
      ∀ o ∈ (finalize_round 11 30 gBad).2, ∀ uid ki, o ≠ Output.rewardAttempt uid ki) :=
  ⟨(spec_c10_reward_bounds s3 11 30).1 reachable_s3 (by decide) (by decide),
   (spec_c10_reward_bounds gBad 11 30).2 7 rfl (by decide) (by decide)⟩

end Giveaway
